import Mathlib

/-!
Shallow embedding of the core of `src/scraper.py` (idealista-portugal):
the adaptive rate limiter (`AdaptiveRateLimiter`), the page fetcher
(`fetch_page`), and the paginated crawl session with per-user dedup
(`IdealistaScraper.scrape_listings` / `cleanup_seen_listings`).

Modelling conventions:
- wall-clock times and delays are rationals (Python floats; all constants
  and arithmetic relevant here are exact in both ℚ and IEEE doubles);
- listing ids (the `link` strings used as dedup keys) are natural numbers;
- one result page, as produced by the external HTML parser, is a list of
  already-parsed candidate records; a failed fetch is `none`;
- the per-user seen set is a Python `set`.  Inside the crawl loop it is
  only used for membership tests and element insertion, so it is modelled
  as its insertion-order list of distinct ids.  `list(set)` iteration
  order is NOT insertion order in Python, so theorems about
  `cleanup_seen_listings` (which slices `list(set)`) quantify over an
  arbitrary permutation where the order matters.
-/

namespace Idealista

/-! ## AdaptiveRateLimiter (scraper.py lines 27-89) -/

/-- Constant `min_delay_seconds = 90`. -/
def minDelaySeconds : ℚ := 90

/-- Constant `global_min_delay = 45`. -/
def globalMinDelay : ℚ := 45

/-- Constant `backoff_multiplier = 2.5`. -/
def backoffMultiplier : ℚ := 5 / 2

/-- Constant `max_delay = 600`. -/
def maxDelay : ℚ := 600

/-- The quiet window literal `300` in `wait_if_needed`. -/
def quietWindow : ℚ := 300

/-- The error-tracking part of the `AdaptiveRateLimiter` state:
`recent_errors` and `last_error_time`. -/
structure RateLimiter where
  recentErrors : Nat
  lastErrorTime : ℚ
  deriving DecidableEq

/-- Initial limiter state set up in `AdaptiveRateLimiter.__init__`:
`recent_errors = 0`, `last_error_time = 0`. -/
def initLimiter : RateLimiter := ⟨0, 0⟩

/-- `AdaptiveRateLimiter.record_error` (lines 83-89): increment
`recent_errors` and set `last_error_time` to the current time. -/
def record_error (now : ℚ) (rl : RateLimiter) : RateLimiter :=
  ⟨rl.recentErrors + 1, now⟩

/-- Record a sequence of errors, one per timestamp in order. -/
def recordSeq (rl : RateLimiter) (ts : List ℚ) : RateLimiter :=
  ts.foldl (fun r t => record_error t r) rl

/-- The delay computation at the top of `wait_if_needed` (lines 47-62):
returns the `adjusted_delay` together with the limiter state after the
possible error-count reset.  If `recent_errors > 0` and the last error is
less than 300 seconds old, the delay is
`min(min_delay_seconds * backoff_multiplier ** recent_errors, max_delay)`;
otherwise the delay is `min_delay_seconds` and a positive error count is
reset to 0. -/
def adjustedDelay (rl : RateLimiter) (now : ℚ) : ℚ × RateLimiter :=
  if 0 < rl.recentErrors ∧ now - rl.lastErrorTime < quietWindow then
    (min (minDelaySeconds * backoffMultiplier ^ rl.recentErrors) maxDelay, rl)
  else
    (minDelaySeconds, if 0 < rl.recentErrors then ⟨0, rl.lastErrorTime⟩ else rl)

/-! ## fetch_page (scraper.py lines 105-163) -/

/-- Outcome of the single HTTP GET inside `fetch_page`: either a response
with a status code and body, or a raised transport-level exception. -/
inductive FetchEvent where
  | response (status : Nat) (body : String)
  | transportError
  deriving DecidableEq

/-- Observable behaviour of one `fetch_page` call: the returned value
(`None` is `none`), whether `record_error` was invoked on the global
rate limiter, and the extra emergency sleep taken before returning. -/
structure FetchOutcome where
  body : Option String
  errorRecorded : Bool
  emergencySleep : Nat
  deriving DecidableEq

/-- Status classification inside the `try` block of `fetch_page`
(lines 137-159), in source order: 429 records an error and returns None;
403 records an error, sleeps 120 seconds, and returns None; any other
non-200 returns None without recording; 200 returns the body. -/
def classifyResponse (status : Nat) (body : String) : FetchOutcome :=
  if status = 429 then ⟨none, true, 0⟩
  else if status = 403 then ⟨none, true, 120⟩
  else if status ≠ 200 then ⟨none, false, 0⟩
  else ⟨some body, false, 0⟩

/-- The `try` block of `fetch_page`: the GET itself may raise (modelled
as `Except.error`), otherwise the response is classified. -/
def fetchAttempt : FetchEvent → Except Unit FetchOutcome
  | .transportError => .error ()
  | .response s b => .ok (classifyResponse s b)

/-- `fetch_page` at its public interface: the `except` handler
(lines 160-163) catches any raised exception and returns `None` with no
error recorded. -/
def fetch_page (ev : FetchEvent) : FetchOutcome :=
  match fetchAttempt ev with
  | .ok r => r
  | .error _ => ⟨none, false, 0⟩

/-! ## IdealistaScraper.scrape_listings (scraper.py lines 279-639) -/

/-- One listing candidate as produced by the HTML parsing at the top of
the per-listing loop (lines 362-425): the dedup key (`link`, modelled as
a natural number), the free-text description, the floor label, and the
parsed price, rooms and size integers. -/
structure Candidate where
  link : Nat
  description : String
  floor : String
  price : Nat
  rooms : Nat
  size : Nat
  deriving DecidableEq

/-- The numeric filter fields of `SearchConfig` (models.py lines 41-49)
used by `scrape_listings`. -/
structure SearchConfig where
  min_rooms : Nat
  min_size : Nat
  max_size : Nat
  max_price : Nat
  deriving DecidableEq

/-- Substring test on character lists, the semantics of the Python `in`
operator on strings: true iff the needle occurs contiguously in the hay
(an empty needle always occurs). -/
def containsSub (needle : List Char) : List Char → Bool
  | [] => needle.isEmpty
  | c :: rest => needle.isPrefixOf (c :: rest) || containsSub needle rest

/-- `needle in hay` on Python strings. -/
def substrOf (needle hay : String) : Bool :=
  containsSub needle.data hay.data

/-- Python `str.lower()`, as a character-wise map (it agrees with
`Char.toLower` on every string occurring in the embedded code). -/
def lowerStr (s : String) : String :=
  ⟨s.data.map Char.toLower⟩

/-- The hard-coded `excluded_terms` list (lines 461-466). -/
def excludedTerms : List String :=
  ["curto prazo", "alquiler temporal", "estancia corta", "short term"]

/-- The short-term-rental exclusion test (lines 467-470):
`any(term.lower() in description.lower() for term in excluded_terms)`. -/
def hasExcludedTerm (description : String) : Bool :=
  excludedTerms.any fun t => substrOf (lowerStr t) (lowerStr description)

/-- The hard-coded `excluded_floors` list (line 477). -/
def excludedFloors : List String :=
  ["Entreplanta", "Planta 1ᵃ", "Bajo"]

/-- The excluded-floor test (lines 483-486):
`any(floor_term.lower() in floor.lower() for floor_term in excluded_floors)`. -/
def hasExcludedFloor (floor : String) : Bool :=
  excludedFloors.any fun t => substrOf (lowerStr t) (lowerStr floor)

/-- The body of the per-listing loop (lines 362-590) for one candidate,
acting on the accumulator `(new_listings_this_page, seen set, reported
ids this page)`.  Checks run in source order: dedup membership first
(line 372), then the description exclusion (line 467), the floor
exclusion (line 483), and the numeric filters (lines 493-507); a
candidate passing them all is reported and its id immediately added to
the seen set (lines 568-570). -/
def processListing (cfg : SearchConfig) (acc : Nat × List Nat × List Nat)
    (c : Candidate) : Nat × List Nat × List Nat :=
  if acc.2.1.contains c.link then acc
  else if hasExcludedTerm c.description then acc
  else if hasExcludedFloor c.floor then acc
  else if cfg.max_price < c.price then acc
  else if c.rooms < cfg.min_rooms then acc
  else if c.size < cfg.min_size ∨ cfg.max_size < c.size then acc
  else (acc.1 + 1, acc.2.1 ++ [c.link], acc.2.2 ++ [c.link])

/-- Processing of all candidates of one page in order, starting with
`new_listings_this_page = 0` and an empty per-page result list. -/
def processPage (cfg : SearchConfig) (seen : List Nat)
    (cands : List Candidate) : Nat × List Nat × List Nat :=
  cands.foldl (processListing cfg) (0, seen, [])

/-- Loop state of `scrape_listings`: the seen set (insertion order), the
ids of all listings reported so far (`all_listings`), the shared
`consecutive_empty_pages` counter, and the number of `fetch_page` calls
made. -/
structure ScrapeState where
  seen : List Nat
  results : List Nat
  streak : Nat
  fetched : Nat
  deriving DecidableEq

/-- Constant `max_consecutive_empty = 2` (line 302). -/
def maxConsecutiveEmpty : Nat := 2

/-- Result of one iteration of the pagination `while` loop: either the
loop `break`s with the given state, or continues to the next page. -/
inductive StepOutcome where
  | stopped (st : ScrapeState)
  | continued (st : ScrapeState)
  deriving DecidableEq

/-- One iteration of the pagination loop (lines 305-624) after the
fetch: a failed fetch breaks (line 334); a page with no listing
elements increments `consecutive_empty_pages` and breaks at 2
(lines 343-354); otherwise the counter is reset to 0 (line 357), the
page is processed, and if it yielded no new listings the counter is
incremented and the loop breaks when it reaches 2 unless
`force_all_pages` is set (lines 605-621). -/
def scrapeStep (cfg : SearchConfig) (forceAllPages : Bool)
    (st : ScrapeState) (fetch : Option (List Candidate)) : StepOutcome :=
  match fetch with
  | none => .stopped st
  | some cands =>
    if cands.isEmpty then
      let st1 : ScrapeState :=
        ⟨st.seen, st.results, st.streak + 1, st.fetched⟩
      if maxConsecutiveEmpty ≤ st1.streak then .stopped st1 else .continued st1
    else
      let r := processPage cfg st.seen cands
      let st1 : ScrapeState :=
        ⟨r.2.1, st.results ++ r.2.2, 0, st.fetched⟩
      if r.1 = 0 then
        let st2 : ScrapeState := ⟨st1.seen, st1.results, st1.streak + 1, st1.fetched⟩
        if maxConsecutiveEmpty ≤ st2.streak ∧ forceAllPages = false then
          .stopped st2
        else .continued st2
      else .continued ⟨st1.seen, st1.results, 0, st1.fetched⟩

/-- The pagination loop over the sequence of page contents for pages
1 .. max_pages (the list has one entry per page the `while` condition
would admit).  Each iteration performs one `fetch_page` call. -/
def scrapeRun (cfg : SearchConfig) (forceAllPages : Bool) :
    List (Option (List Candidate)) → ScrapeState → ScrapeState
  | [], st => st
  | p :: rest, st =>
    let st1 : ScrapeState := ⟨st.seen, st.results, st.streak, st.fetched + 1⟩
    match scrapeStep cfg forceAllPages st1 p with
    | .stopped st2 => st2
    | .continued st2 => scrapeRun cfg forceAllPages rest st2

/-- Constant `max_seen_per_user = 1000` (line 169). -/
def maxSeenPerUser : Nat := 1000

/-- `IdealistaScraper.cleanup_seen_listings` (lines 187-198) for one
user, as a function of the iteration order `list(seen_set)`: if the set
holds more than 1000 ids, keep only the last 500 of that iteration
order (`seen_list[-500:]`). -/
def cleanup_seen_listings (seenList : List Nat) : List Nat :=
  if maxSeenPerUser < seenList.length then
    seenList.drop (seenList.length - 500)
  else seenList

/-- Initial loop state of one `scrape_listings` call (lines 294-302). -/
def initState (seen0 : List Nat) : ScrapeState := ⟨seen0, [], 0, 0⟩

/-- One whole `scrape_listings` call: run the pagination loop, then
`cleanup_seen_listings` (line 627).  The cleanup slice is applied here
to the insertion-order list; order-sensitive claims about the cleanup
itself are stated against an arbitrary permutation. -/
def scrape_listings (cfg : SearchConfig) (forceAllPages : Bool)
    (pages : List (Option (List Candidate))) (seen0 : List Nat) : ScrapeState :=
  let st := scrapeRun cfg forceAllPages pages (initState seen0)
  ⟨cleanup_seen_listings st.seen, st.results, st.streak, st.fetched⟩

/-- A candidate is inert for a seen set when the per-listing loop skips
it without reporting or marking: its id is already seen, or it is
excluded by description or floor, or it fails a numeric filter. -/
def inert (cfg : SearchConfig) (S : List Nat) (c : Candidate) : Prop :=
  c.link ∈ S ∨ hasExcludedTerm c.description = true
    ∨ hasExcludedFloor c.floor = true
    ∨ cfg.max_price < c.price ∨ c.rooms < cfg.min_rooms
    ∨ c.size < cfg.min_size ∨ cfg.max_size < c.size

/-- A candidate is skipped without being marked seen, for reasons
independent of the seen set. -/
def hardSkipped (cfg : SearchConfig) (c : Candidate) : Prop :=
  hasExcludedTerm c.description = true
    ∨ hasExcludedFloor c.floor = true
    ∨ cfg.max_price < c.price ∨ c.rooms < cfg.min_rooms
    ∨ c.size < cfg.min_size ∨ cfg.max_size < c.size

/-! ## Concrete inputs used by counterexamples and witnesses -/

/-- A permissive configuration: every candidate below satisfies the
numeric filters. -/
def cfgOpen : SearchConfig := ⟨0, 0, 1000, 1000⟩

/-- A plain candidate with the given id: empty description and floor,
price 0, rooms 0, size 0. -/
def plainCand (i : Nat) : Candidate := ⟨i, "", "", 0, 0, 0⟩

/-- Page sequence for the C2 counterexample: page 1 has one candidate
(id 1), page 2 is empty, page 3 has a fresh candidate (id 2). -/
def pagesC2 : List (Option (List Candidate)) :=
  [some [plainCand 1], some [], some [plainCand 2]]

/-- Page sequence for the C6 failing input: page 1 introduces id 1,
pages 2 and 3 repeat it (so they have candidates but no new matches),
page 4 has a fresh candidate (id 4). -/
def pagesC6 : List (Option (List Candidate)) :=
  [some [plainCand 1], some [plainCand 1], some [plainCand 1], some [plainCand 4]]

/-- A configuration with a low price ceiling (100). -/
def cfgStrict : SearchConfig := ⟨0, 0, 1000, 100⟩

/-- A candidate priced above `cfgStrict.max_price` but within
`cfgOpen.max_price`. -/
def candC10 : Candidate := ⟨7, "", "", 900, 0, 50⟩

/-- One page holding only `candC10`. -/
def pagesC10 : List (Option (List Candidate)) := [some [candC10]]

/-- A candidate whose description contains the short-term marker. -/
def candC8 : Candidate := ⟨5, "Lovely flat for Short Term stay", "", 0, 0, 0⟩

/-- One page holding only `candC8`. -/
def pagesC8 : List (Option (List Candidate)) := [some [candC8]]

/-- Pre-existing seen ids 1..501 for the C7 counterexample. -/
def seenC7 : List Nat := List.range' 1 501

/-- Fresh ids 502..1001 for the C7 counterexample. -/
def freshC7 : List Nat := List.range' 502 500

/-- Page content for the C7 counterexample: one already-seen candidate
(id 1) followed by 500 fresh matching candidates. -/
def candsC7 : List Candidate := plainCand 1 :: freshC7.map plainCand

/-- The single page of the C7 counterexample. -/
def pagesC7 : List (Option (List Candidate)) := [some candsC7]

/-- The state a `StepOutcome` carries, whether stopped or continued. -/
def StepOutcome.state : StepOutcome → ScrapeState
  | .stopped st => st
  | .continued st => st

/-! ## Theorems -/

/-- Bridge between the boolean membership test used by the code and
list membership. -/
theorem contains_iff_mem (l : List Nat) (a : Nat) :
    l.contains a = true ↔ a ∈ l := by
  simp [List.contains]

/-- Case analysis of the per-listing loop body: a candidate is either
skipped with the accumulator unchanged (exactly when it is inert for
the current seen set) or reported and marked seen. -/
theorem processListing_cases (cfg : SearchConfig)
    (acc : Nat × List Nat × List Nat) (c : Candidate) :
    (processListing cfg acc c = acc ∧ inert cfg acc.2.1 c)
    ∨ (processListing cfg acc c
          = (acc.1 + 1, acc.2.1 ++ [c.link], acc.2.2 ++ [c.link])
        ∧ ¬ inert cfg acc.2.1 c) := by
  by_cases h1 : acc.2.1.contains c.link = true
  · exact Or.inl ⟨by rw [processListing, if_pos h1],
      Or.inl ((contains_iff_mem _ _).mp h1)⟩
  · by_cases h2 : hasExcludedTerm c.description = true
    · exact Or.inl ⟨by rw [processListing, if_neg h1, if_pos h2],
        Or.inr (Or.inl h2)⟩
    · by_cases h3 : hasExcludedFloor c.floor = true
      · exact Or.inl ⟨by rw [processListing, if_neg h1, if_neg h2, if_pos h3],
          Or.inr (Or.inr (Or.inl h3))⟩
      · by_cases h4 : cfg.max_price < c.price
        · exact Or.inl ⟨by
            rw [processListing, if_neg h1, if_neg h2, if_neg h3, if_pos h4],
            Or.inr (Or.inr (Or.inr (Or.inl h4)))⟩
        · by_cases h5 : c.rooms < cfg.min_rooms
          · exact Or.inl ⟨by
              rw [processListing, if_neg h1, if_neg h2, if_neg h3, if_neg h4,
                if_pos h5],
              Or.inr (Or.inr (Or.inr (Or.inr (Or.inl h5))))⟩
          · by_cases h6 : c.size < cfg.min_size ∨ cfg.max_size < c.size
            · exact Or.inl ⟨by
                rw [processListing, if_neg h1, if_neg h2, if_neg h3, if_neg h4,
                  if_neg h5, if_pos h6],
                Or.inr (Or.inr (Or.inr (Or.inr (Or.inr
                  (h6.imp id id)))))⟩
            · refine Or.inr ⟨by
                rw [processListing, if_neg h1, if_neg h2, if_neg h3, if_neg h4,
                  if_neg h5, if_neg h6], ?_⟩
              rintro (hm | he | hf | hp | hr | hs1 | hs2)
              · exact h1 ((contains_iff_mem _ _).mpr hm)
              · exact h2 he
              · exact h3 hf
              · exact h4 hp
              · exact h5 hr
              · exact h6 (Or.inl hs1)
              · exact h6 (Or.inr hs2)

/-- An inert candidate leaves the per-listing accumulator unchanged. -/
theorem processListing_inert (cfg : SearchConfig)
    (acc : Nat × List Nat × List Nat) (c : Candidate)
    (h : inert cfg acc.2.1 c) : processListing cfg acc c = acc := by
  rcases processListing_cases cfg acc c with ⟨heq, -⟩ | ⟨-, hni⟩
  · exact heq
  · exact absurd h hni

/-- The seen set only grows across one candidate. -/
theorem processListing_seen_sub (cfg : SearchConfig)
    (acc : Nat × List Nat × List Nat) (c : Candidate) :
    ∀ x ∈ acc.2.1, x ∈ (processListing cfg acc c).2.1 := by
  intro x hx
  rcases processListing_cases cfg acc c with ⟨heq, -⟩ | ⟨heq, -⟩ <;>
    rw [heq]
  · exact hx
  · exact List.mem_append_left _ hx

/-- The seen set only grows across a page. -/
theorem foldl_seen_sub (cfg : SearchConfig) (cs : List Candidate) :
    ∀ (acc : Nat × List Nat × List Nat) (x : Nat), x ∈ acc.2.1 →
      x ∈ (List.foldl (processListing cfg) acc cs).2.1 := by
  induction cs with
  | nil => intro acc x hx; exact hx
  | cons hd tl ih =>
    intro acc x hx
    exact ih (processListing cfg acc hd) x
      (processListing_seen_sub cfg acc hd x hx)

/-- Inertness only depends on the seen set monotonically. -/
theorem inert_mono (cfg : SearchConfig) (c : Candidate) (S1 S2 : List Nat)
    (h : inert cfg S1 c) (hsub : ∀ x ∈ S1, x ∈ S2) : inert cfg S2 c := by
  rcases h with hm | h
  · exact Or.inl (hsub _ hm)
  · exact Or.inr h

/-- A page whose candidates are all inert changes nothing and yields no
new listings. -/
theorem foldl_inert (cfg : SearchConfig) (cs : List Candidate) :
    ∀ (acc : Nat × List Nat × List Nat),
      (∀ c ∈ cs, inert cfg acc.2.1 c) →
      List.foldl (processListing cfg) acc cs = acc := by
  induction cs with
  | nil => intro acc _; rfl
  | cons hd tl ih =>
    intro acc h
    have hhd : processListing cfg acc hd = acc :=
      processListing_inert cfg acc hd (h hd (List.mem_cons_self hd tl))
    rw [List.foldl_cons, hhd]
    exact ih acc fun c hc => h c (List.mem_cons_of_mem hd hc)

/-- After a page is processed, every candidate of that page is inert
for the resulting seen set. -/
theorem foldl_makes_inert (cfg : SearchConfig) (cs : List Candidate) :
    ∀ (acc : Nat × List Nat × List Nat) (c : Candidate), c ∈ cs →
      inert cfg (List.foldl (processListing cfg) acc cs).2.1 c := by
  induction cs with
  | nil => intro acc c hc; exact absurd hc (List.not_mem_nil c)
  | cons hd tl ih =>
    intro acc c hc
    rw [List.foldl_cons]
    rcases List.mem_cons.mp hc with rfl | hmem
    · have hstep : inert cfg (processListing cfg acc c).2.1 c := by
        rcases processListing_cases cfg acc c with ⟨heq, hin⟩ | ⟨heq, -⟩ <;>
          rw [heq]
        · exact hin
        · exact Or.inl (List.mem_append_right _ (List.mem_singleton.mpr rfl))
      exact inert_mono cfg c _ _ hstep
        (fun x hx => foldl_seen_sub cfg tl _ x hx)
    · exact ih (processListing cfg acc hd) c hmem

/-- Unfolding of one pagination-loop iteration. -/
theorem scrapeRun_cons (cfg : SearchConfig) (force : Bool)
    (p : Option (List Candidate)) (rest : List (Option (List Candidate)))
    (st : ScrapeState) :
    scrapeRun cfg force (p :: rest) st
      = (match scrapeStep cfg force
            ⟨st.seen, st.results, st.streak, st.fetched + 1⟩ p with
         | .stopped st2 => st2
         | .continued st2 => scrapeRun cfg force rest st2) := rfl

/-- A failed fetch breaks the loop with the state unchanged. -/
theorem scrapeStep_none_eq (cfg : SearchConfig) (force : Bool)
    (st : ScrapeState) : scrapeStep cfg force st none = .stopped st := rfl

/-- An empty page increments the shared streak counter and stops the
session exactly when the counter reaches 2, regardless of
`force_all_pages`. -/
theorem scrapeStep_empty_eq (cfg : SearchConfig) (force : Bool)
    (seen results : List Nat) (streak fetched : Nat)
    (cands : List Candidate) (h : cands.isEmpty = true) :
    scrapeStep cfg force ⟨seen, results, streak, fetched⟩ (some cands)
      = if maxConsecutiveEmpty ≤ streak + 1
        then .stopped ⟨seen, results, streak + 1, fetched⟩
        else .continued ⟨seen, results, streak + 1, fetched⟩ := by
  simp [scrapeStep, h]

/-- A page with candidates always continues the loop: the counter was
just reset to 0, so after a no-new page it is exactly 1, below the
threshold of 2. -/
theorem scrapeStep_cands_eq (cfg : SearchConfig) (force : Bool)
    (seen results : List Nat) (streak fetched : Nat)
    (cands : List Candidate) (h : cands.isEmpty = false) :
    scrapeStep cfg force ⟨seen, results, streak, fetched⟩ (some cands)
      = if (processPage cfg seen cands).1 = 0
        then .continued ⟨(processPage cfg seen cands).2.1,
            results ++ (processPage cfg seen cands).2.2, 1, fetched⟩
        else .continued ⟨(processPage cfg seen cands).2.1,
            results ++ (processPage cfg seen cands).2.2, 0, fetched⟩ := by
  have hstop : ¬ (maxConsecutiveEmpty ≤ 0 + 1 ∧ force = false) := by
    rintro ⟨hle, -⟩
    simp [maxConsecutiveEmpty] at hle
  by_cases h0 : (processPage cfg seen cands).1 = 0
  · simp [scrapeStep, h, h0, hstop]
  · simp [scrapeStep, h, h0]

/-- The seen set only grows across a whole pagination run. -/
theorem scrapeRun_seen_mono (cfg : SearchConfig) (force : Bool) :
    ∀ (ps : List (Option (List Candidate))) (st : ScrapeState) (x : Nat),
      x ∈ st.seen → x ∈ (scrapeRun cfg force ps st).seen := by
  intro ps
  induction ps with
  | nil => intro st x hx; exact hx
  | cons p rest ih =>
    intro st x hx
    rw [scrapeRun_cons]
    cases p with
    | none => exact hx
    | some cands =>
      cases hemp : cands.isEmpty with
      | true =>
        rw [scrapeStep_empty_eq cfg force st.seen st.results st.streak
          (st.fetched + 1) cands hemp]
        by_cases h2 : maxConsecutiveEmpty ≤ st.streak + 1
        · rw [if_pos h2]; exact hx
        · rw [if_neg h2]
          exact ih ⟨st.seen, st.results, st.streak + 1, st.fetched + 1⟩ x hx
      | false =>
        rw [scrapeStep_cands_eq cfg force st.seen st.results st.streak
          (st.fetched + 1) cands hemp]
        by_cases h0 : (processPage cfg st.seen cands).1 = 0
        · rw [if_pos h0]
          exact ih _ x (foldl_seen_sub cfg cands (0, st.seen, []) x hx)
        · rw [if_neg h0]
          exact ih _ x (foldl_seen_sub cfg cands (0, st.seen, []) x hx)

/-- Replay lemma: running the pagination loop from a state whose seen
set already covers everything a reference run would ever mark, and
whose streak counter is at least the reference streak, marks nothing
new and reports nothing. -/
theorem scrapeRun_replay (cfg : SearchConfig) (force : Bool) :
    ∀ (ps : List (Option (List Candidate))) (st1 st2 : ScrapeState),
      st1.streak ≤ st2.streak →
      (∀ x, x ∈ (scrapeRun cfg force ps st1).seen → x ∈ st2.seen) →
      (scrapeRun cfg force ps st2).seen = st2.seen
      ∧ (scrapeRun cfg force ps st2).results = st2.results := by
  intro ps
  induction ps with
  | nil => intro st1 st2 _ _; exact ⟨rfl, rfl⟩
  | cons p rest ih =>
    intro st1 st2 hstreak hsub
    rw [scrapeRun_cons] at hsub
    rw [scrapeRun_cons]
    cases p with
    | none =>
      rw [scrapeStep_none_eq] at hsub
      rw [scrapeStep_none_eq]
      exact ⟨rfl, rfl⟩
    | some cands =>
      cases hemp : cands.isEmpty with
      | true =>
        rw [scrapeStep_empty_eq cfg force st1.seen st1.results st1.streak
          (st1.fetched + 1) cands hemp] at hsub
        rw [scrapeStep_empty_eq cfg force st2.seen st2.results st2.streak
          (st2.fetched + 1) cands hemp]
        by_cases h2 : maxConsecutiveEmpty ≤ st2.streak + 1
        · rw [if_pos h2]
          exact ⟨rfl, rfl⟩
        · rw [if_neg h2]
          have h1 : ¬ maxConsecutiveEmpty ≤ st1.streak + 1 := fun hle =>
            h2 (le_trans hle (Nat.succ_le_succ hstreak))
          rw [if_neg h1] at hsub
          exact ih ⟨st1.seen, st1.results, st1.streak + 1, st1.fetched + 1⟩
            ⟨st2.seen, st2.results, st2.streak + 1, st2.fetched + 1⟩
            (Nat.succ_le_succ hstreak) hsub
      | false =>
        rw [scrapeStep_cands_eq cfg force st1.seen st1.results st1.streak
          (st1.fetched + 1) cands hemp] at hsub
        rw [scrapeStep_cands_eq cfg force st2.seen st2.results st2.streak
          (st2.fetched + 1) cands hemp]
        by_cases h10 : (processPage cfg st1.seen cands).1 = 0
        · rw [if_pos h10] at hsub
          have hinert2 : ∀ c ∈ cands, inert cfg st2.seen c := fun c hc =>
            inert_mono cfg c _ _
              (foldl_makes_inert cfg cands (0, st1.seen, []) c hc)
              (fun x hx => hsub x (scrapeRun_seen_mono cfg force rest
                ⟨(processPage cfg st1.seen cands).2.1,
                  st1.results ++ (processPage cfg st1.seen cands).2.2, 1,
                  st1.fetched + 1⟩ x hx))
          have hr2 : processPage cfg st2.seen cands = (0, st2.seen, []) :=
            foldl_inert cfg cands (0, st2.seen, []) hinert2
          rw [hr2]
          obtain ⟨hs, hr⟩ := ih
            ⟨(processPage cfg st1.seen cands).2.1,
              st1.results ++ (processPage cfg st1.seen cands).2.2, 1,
              st1.fetched + 1⟩
            ⟨st2.seen, st2.results ++ [], 1, st2.fetched + 1⟩
            le_rfl hsub
          rw [if_pos rfl]
          refine ⟨by rw [hs], ?_⟩
          rw [hr, List.append_nil]
        · rw [if_neg h10] at hsub
          have hinert2 : ∀ c ∈ cands, inert cfg st2.seen c := fun c hc =>
            inert_mono cfg c _ _
              (foldl_makes_inert cfg cands (0, st1.seen, []) c hc)
              (fun x hx => hsub x (scrapeRun_seen_mono cfg force rest
                ⟨(processPage cfg st1.seen cands).2.1,
                  st1.results ++ (processPage cfg st1.seen cands).2.2, 0,
                  st1.fetched + 1⟩ x hx))
          have hr2 : processPage cfg st2.seen cands = (0, st2.seen, []) :=
            foldl_inert cfg cands (0, st2.seen, []) hinert2
          rw [hr2]
          obtain ⟨hs, hr⟩ := ih
            ⟨(processPage cfg st1.seen cands).2.1,
              st1.results ++ (processPage cfg st1.seen cands).2.2, 0,
              st1.fetched + 1⟩
            ⟨st2.seen, st2.results ++ [], 1, st2.fetched + 1⟩
            (Nat.zero_le 1) hsub
          rw [if_pos rfl]
          refine ⟨by rw [hs], ?_⟩
          rw [hr, List.append_nil]

/-- Whatever the trim keeps was already in the set. -/
theorem cleanup_subset (s : List Nat) :
    ∀ x ∈ cleanup_seen_listings s, x ∈ s := by
  intro x hx
  rw [cleanup_seen_listings] at hx
  by_cases h : maxSeenPerUser < s.length
  · rw [if_pos h] at hx
    exact List.drop_subset _ _ hx
  · rw [if_neg h] at hx
    exact hx

/-- A hard-skipped candidate is inert for every seen set. -/
theorem hardSkipped_inert (cfg : SearchConfig) (S : List Nat)
    (c : Candidate) (h : hardSkipped cfg c) : inert cfg S c :=
  Or.inr h

/-- Processing a list of plain fresh candidates under the permissive
configuration reports and marks all of them in order. -/
theorem foldl_fresh (ids : List Nat) :
    ∀ (acc : Nat × List Nat × List Nat), ids.Nodup →
      (∀ i ∈ ids, i ∉ acc.2.1) →
      List.foldl (processListing cfgOpen) acc (ids.map plainCand)
        = (acc.1 + ids.length, acc.2.1 ++ ids, acc.2.2 ++ ids) := by
  induction ids with
  | nil => intro acc _ _; simp
  | cons i rest ih =>
    intro acc hnodup hfresh
    have hstep : processListing cfgOpen acc (plainCand i)
        = (acc.1 + 1, acc.2.1 ++ [i], acc.2.2 ++ [i]) := by
      rcases processListing_cases cfgOpen acc (plainCand i) with
        ⟨-, hin⟩ | ⟨heq, -⟩
      · exfalso
        simp only [inert, plainCand, cfgOpen] at hin
        rcases hin with hm | he | hf | hp | hr | hs1 | hs2
        · exact hfresh i (List.mem_cons_self i rest) hm
        · exact absurd he (by decide)
        · exact absurd hf (by decide)
        · exact absurd hp (by decide)
        · exact absurd hr (by decide)
        · exact absurd hs1 (by decide)
        · exact absurd hs2 (by decide)
      · exact heq
    have hfresh2 : ∀ j ∈ rest, j ∉ acc.2.1 ++ [i] := by
      intro j hj hmem
      rcases List.mem_append.mp hmem with hj1 | hj2
      · exact hfresh j (List.mem_cons_of_mem i hj) hj1
      · exact (List.nodup_cons.mp hnodup).1
          (List.mem_singleton.mp hj2 ▸ hj)
    rw [List.map_cons, List.foldl_cons, hstep,
      ih (acc.1 + 1, acc.2.1 ++ [i], acc.2.2 ++ [i])
        (List.nodup_cons.mp hnodup).2 hfresh2]
    rw [List.length_cons]
    simp only [List.append_assoc, List.singleton_append]
    rw [show acc.1 + 1 + rest.length = acc.1 + (rest.length + 1) by omega]

/-- If every candidate carrying the id `l` on a page is hard-skipped,
processing the page neither marks `l` seen nor reports it. -/
theorem foldl_not_marked (cfg : SearchConfig) (l : Nat)
    (cs : List Candidate) :
    ∀ (acc : Nat × List Nat × List Nat),
      (∀ c ∈ cs, c.link = l → hardSkipped cfg c) →
      l ∉ acc.2.1 → l ∉ acc.2.2 →
      l ∉ (List.foldl (processListing cfg) acc cs).2.1
      ∧ l ∉ (List.foldl (processListing cfg) acc cs).2.2 := by
  induction cs with
  | nil => intro acc _ h1 h2; exact ⟨h1, h2⟩
  | cons hd tl ih =>
    intro acc hall h1 h2
    rw [List.foldl_cons]
    rcases processListing_cases cfg acc hd with ⟨heq, -⟩ | ⟨heq, hni⟩
    · rw [heq]
      exact ih acc (fun c hc => hall c (List.mem_cons_of_mem hd hc)) h1 h2
    · rw [heq]
      have hne : hd.link ≠ l := fun heq2 =>
        hni (hardSkipped_inert cfg acc.2.1 hd
          (hall hd (List.mem_cons_self hd tl) heq2))
      have hnotin : ∀ (r : List Nat), l ∉ r → l ∉ r ++ [hd.link] := by
        intro r hr hmem
        rcases List.mem_append.mp hmem with h | h
        · exact hr h
        · exact hne (List.mem_singleton.mp h).symm
      exact ih (acc.1 + 1, acc.2.1 ++ [hd.link], acc.2.2 ++ [hd.link])
        (fun c hc => hall c (List.mem_cons_of_mem hd hc))
        (hnotin acc.2.1 h1) (hnotin acc.2.2 h2)

/-- If every candidate carrying the id `l` on every page is
hard-skipped, the whole pagination run neither marks `l` seen nor
reports it. -/
theorem scrapeRun_not_marked (cfg : SearchConfig) (force : Bool) (l : Nat) :
    ∀ (ps : List (Option (List Candidate))) (st : ScrapeState),
      (∀ p ∈ ps, ∀ c ∈ p.getD [], c.link = l → hardSkipped cfg c) →
      l ∉ st.seen → l ∉ st.results →
      l ∉ (scrapeRun cfg force ps st).seen
      ∧ l ∉ (scrapeRun cfg force ps st).results := by
  intro ps
  induction ps with
  | nil => intro st _ h1 h2; exact ⟨h1, h2⟩
  | cons p rest ih =>
    intro st hall h1 h2
    rw [scrapeRun_cons]
    cases p with
    | none => exact ⟨h1, h2⟩
    | some cands =>
      have hpage : ∀ c ∈ cands, c.link = l → hardSkipped cfg c :=
        hall (some cands) (List.mem_cons_self _ _)
      have hrest : ∀ p2 ∈ rest, ∀ c ∈ p2.getD [], c.link = l →
          hardSkipped cfg c :=
        fun p2 hp2 => hall p2 (List.mem_cons_of_mem _ hp2)
      cases hemp : cands.isEmpty with
      | true =>
        rw [scrapeStep_empty_eq cfg force st.seen st.results st.streak
          (st.fetched + 1) cands hemp]
        by_cases h2s : maxConsecutiveEmpty ≤ st.streak + 1
        · rw [if_pos h2s]; exact ⟨h1, h2⟩
        · rw [if_neg h2s]
          exact ih ⟨st.seen, st.results, st.streak + 1, st.fetched + 1⟩
            hrest h1 h2
      | false =>
        rw [scrapeStep_cands_eq cfg force st.seen st.results st.streak
          (st.fetched + 1) cands hemp]
        obtain ⟨hs, hr⟩ := foldl_not_marked cfg l cands (0, st.seen, [])
          hpage h1 (List.not_mem_nil l)
        have hres : l ∉ st.results
            ++ (processPage cfg st.seen cands).2.2 := by
          intro hmem
          rcases List.mem_append.mp hmem with h | h
          · exact h2 h
          · exact hr h
        by_cases h0 : (processPage cfg st.seen cands).1 = 0
        · rw [if_pos h0]
          exact ih ⟨(processPage cfg st.seen cands).2.1,
            st.results ++ (processPage cfg st.seen cands).2.2, 1,
            st.fetched + 1⟩ hrest hs hres
        · rw [if_neg h0]
          exact ih ⟨(processPage cfg st.seen cands).2.1,
            st.results ++ (processPage cfg st.seen cands).2.2, 0,
            st.fetched + 1⟩ hrest hs hres

/-- Claim C3: after recording N consecutive failures (N at least 1) whose
last one is within the 300-second quiet window at the next call, the
effective delay computed by `wait_if_needed` equals
`min(90 * 2.5 ^ N, 600)`, and this formula is non-decreasing in N. -/
theorem C3_backoff_monotonicity (ts : List ℚ) (now : ℚ) (hne : ts ≠ [])
    (hwin : now - (recordSeq initLimiter ts).lastErrorTime < quietWindow) :
    (adjustedDelay (recordSeq initLimiter ts) now).1
      = min (minDelaySeconds * backoffMultiplier ^ ts.length) maxDelay
    ∧ ∀ N : Nat, min (minDelaySeconds * backoffMultiplier ^ N) maxDelay
        ≤ min (minDelaySeconds * backoffMultiplier ^ (N + 1)) maxDelay := by
  have hcount : ∀ (l : List ℚ) (rl : RateLimiter),
      (recordSeq rl l).recentErrors = rl.recentErrors + l.length := by
    intro l
    induction l with
    | nil => intro rl; simp [recordSeq]
    | cons t rest ih =>
      intro rl
      simpa [recordSeq, record_error, Nat.add_assoc, Nat.add_comm,
        Nat.add_left_comm] using ih (record_error t rl)
  have hpos : 0 < (recordSeq initLimiter ts).recentErrors := by
    rw [hcount ts initLimiter]
    cases ts with
    | nil => exact absurd rfl hne
    | cons a l => simp [initLimiter]
  constructor
  · rw [adjustedDelay, if_pos ⟨hpos, hwin⟩]
    rw [hcount ts initLimiter]
    simp [initLimiter]
  · intro N
    have hb : (1 : ℚ) ≤ backoffMultiplier := by norm_num [backoffMultiplier]
    have hpow : backoffMultiplier ^ N ≤ backoffMultiplier ^ (N + 1) :=
      pow_le_pow_right₀ hb (Nat.le_succ N)
    have hmul : minDelaySeconds * backoffMultiplier ^ N
        ≤ minDelaySeconds * backoffMultiplier ^ (N + 1) := by
      have h90 : (0 : ℚ) ≤ minDelaySeconds := by norm_num [minDelaySeconds]
      exact mul_le_mul_of_nonneg_left hpow h90
    exact min_le_min hmul le_rfl

/-- Witness for C3 at N = 1, with the error recorded at time 0 and the
next call also at time 0. -/
theorem C3_backoff_monotonicity_witness :
    ([(0 : ℚ)] ≠ [] ∧ (0 : ℚ) - (recordSeq initLimiter [0]).lastErrorTime < quietWindow)
    ∧ ((adjustedDelay (recordSeq initLimiter [(0 : ℚ)]) 0).1
        = min (minDelaySeconds * backoffMultiplier ^ ([(0 : ℚ)]).length) maxDelay
      ∧ ∀ N : Nat, min (minDelaySeconds * backoffMultiplier ^ N) maxDelay
          ≤ min (minDelaySeconds * backoffMultiplier ^ (N + 1)) maxDelay) :=
  ⟨⟨by simp, by norm_num [recordSeq, record_error, initLimiter, quietWindow]⟩,
   C3_backoff_monotonicity [0] 0 (by simp)
     (by norm_num [recordSeq, record_error, initLimiter, quietWindow])⟩

/-- Claim C4: if the limiter has a positive error count but the quiet
window of 300 seconds has elapsed since the last error, the next
`wait_if_needed` call uses the base delay of 90 seconds and resets the
error counter to 0. -/
theorem C4_backoff_decay (rl : RateLimiter) (now : ℚ)
    (hpos : 0 < rl.recentErrors)
    (helapsed : quietWindow ≤ now - rl.lastErrorTime) :
    (adjustedDelay rl now).1 = minDelaySeconds
    ∧ (adjustedDelay rl now).2.recentErrors = 0 := by
  have hnot : ¬(0 < rl.recentErrors ∧ now - rl.lastErrorTime < quietWindow) := by
    rintro ⟨-, hlt⟩
    exact absurd helapsed (not_le.mpr hlt)
  rw [adjustedDelay, if_neg hnot]
  exact ⟨rfl, by simp [if_pos hpos]⟩

/-- Witness for C4: one recorded error at time 0, next call at time 300. -/
theorem C4_backoff_decay_witness :
    (0 < (RateLimiter.mk 1 0).recentErrors
      ∧ quietWindow ≤ (300 : ℚ) - (RateLimiter.mk 1 0).lastErrorTime)
    ∧ ((adjustedDelay (RateLimiter.mk 1 0) 300).1 = minDelaySeconds
      ∧ (adjustedDelay (RateLimiter.mk 1 0) 300).2.recentErrors = 0) :=
  ⟨⟨by norm_num, by norm_num [quietWindow]⟩,
   C4_backoff_decay (RateLimiter.mk 1 0) 300 (by norm_num)
     (by norm_num [quietWindow])⟩

/-- Claim C5: `fetch_page` invokes `record_error` exactly for HTTP 403
and 429; only a 403 response incurs the extra 120-second emergency
sleep; every other non-200 status and every transport error yields
`None` with no error recorded. -/
theorem C5_fetch_classification :
    (∀ ev, (fetch_page ev).errorRecorded = true
        ↔ ∃ s b, ev = .response s b ∧ (s = 403 ∨ s = 429))
    ∧ (∀ ev, (fetch_page ev).emergencySleep = 120
        ↔ ∃ b, ev = .response 403 b)
    ∧ (∀ s b, s ≠ 200 → s ≠ 403 → s ≠ 429 →
        fetch_page (.response s b) = ⟨none, false, 0⟩)
    ∧ fetch_page .transportError = ⟨none, false, 0⟩ := by
  refine ⟨?_, ?_, ?_, rfl⟩
  · intro ev
    cases ev with
    | transportError => simp [fetch_page, fetchAttempt]
    | response s b =>
      simp only [fetch_page, fetchAttempt, classifyResponse]
      by_cases h429 : s = 429
      · subst h429; simp
      · by_cases h403 : s = 403
        · subst h403; simp
        · by_cases h200 : s = 200
          · subst h200
            simp [h429, h403]
          · simp [h429, h403, h200]
  · intro ev
    cases ev with
    | transportError => simp [fetch_page, fetchAttempt]
    | response s b =>
      simp only [fetch_page, fetchAttempt, classifyResponse]
      by_cases h429 : s = 429
      · subst h429; simp
      · by_cases h403 : s = 403
        · subst h403; simp
        · by_cases h200 : s = 200
          · subst h200; simp [h429, h403]
          · simp [h429, h403, h200]
  · intro s b h200 h403 h429
    simp [fetch_page, fetchAttempt, classifyResponse, h200, h403, h429]

/-- Witness for C5 at status 500: a hard error records nothing. -/
theorem C5_fetch_classification_witness :
    ((500 : Nat) ≠ 200 ∧ (500 : Nat) ≠ 403 ∧ (500 : Nat) ≠ 429)
    ∧ fetch_page (.response 500 "body") = ⟨none, false, 0⟩ :=
  ⟨⟨by decide, by decide, by decide⟩,
   C5_fetch_classification.2.2.1 500 "body" (by decide) (by decide)
     (by decide)⟩

/-- Claim C9: `fetch_page` is total at its public interface: a raised
transport exception is caught and the call returns `None`, which is the
same value returned for a non-200 response, and every call returns
either `None` or the body of a 200 response. -/
theorem C9_fetch_total :
    (∀ ev, fetchAttempt ev = .error () → fetch_page ev = ⟨none, false, 0⟩)
    ∧ fetch_page .transportError = fetch_page (.response 500 "")
    ∧ (∀ ev, (fetch_page ev).body = none
        ∨ ∃ b, ev = .response 200 b ∧ (fetch_page ev).body = some b) := by
  refine ⟨?_, by rfl, ?_⟩
  · intro ev h
    rw [fetch_page, h]
  · intro ev
    cases ev with
    | transportError => exact Or.inl rfl
    | response s b =>
      by_cases h200 : s = 200
      · subst h200
        by_cases h429 : (200 : Nat) = 429
        · exact absurd h429 (by norm_num)
        · exact Or.inr ⟨b, rfl, by simp [fetch_page, fetchAttempt, classifyResponse]⟩
      · left
        simp only [fetch_page, fetchAttempt, classifyResponse]
        by_cases h429 : s = 429
        · subst h429; rfl
        · by_cases h403 : s = 403
          · subst h403; rfl
          · simp [h429, h403, h200]

/-- Witness for C9: the transport-error case itself. -/
theorem C9_fetch_total_witness :
    fetchAttempt .transportError = .error ()
    ∧ fetch_page .transportError = ⟨none, false, 0⟩ :=
  ⟨rfl, C9_fetch_total.1 .transportError rfl⟩

set_option maxRecDepth 100000 in
/-- Counterexample to claim C1: the user's seen set is a Python `set`,
whose iteration order `list(set)` need not be the insertion order.
With insertion order 0,...,1199, the most-recently-added 500 in
insertion order are 700,...,1199, but for the reversed iteration order
(a legal enumeration of the same 1200-element set) the trim keeps a
different 500 ids. -/
theorem C1_counterexample :
    (List.range 1200).reverse.Perm (List.range 1200)
    ∧ maxSeenPerUser < (List.range 1200).reverse.length
    ∧ cleanup_seen_listings ((List.range 1200).reverse)
        ≠ (List.range 1200).drop 700 :=
  ⟨List.reverse_perm _,
   by rw [List.length_reverse, List.length_range]; norm_num [maxSeenPerUser],
   by decide⟩

/-- Claim C1 (amended): when a seen set holds more than 1000 ids, the
trim leaves exactly 500 ids, all already present, namely the final 500
of the iteration order the set happens to produce; which 500 survive
depends on that iteration order, not on insertion recency. -/
theorem C1_trim_amended (it : List Nat) (h : maxSeenPerUser < it.length) :
    (cleanup_seen_listings it).length = 500
    ∧ (cleanup_seen_listings it).Sublist it
    ∧ cleanup_seen_listings it = it.drop (it.length - 500) := by
  have h1000 : 1000 < it.length := h
  refine ⟨?_, ?_, ?_⟩
  · rw [cleanup_seen_listings, if_pos h, List.length_drop]
    omega
  · rw [cleanup_seen_listings, if_pos h]
    exact List.drop_sublist _ _
  · rw [cleanup_seen_listings, if_pos h]

/-- Witness for C1 (amended) at an iteration order of length 1001. -/
theorem C1_trim_amended_witness :
    maxSeenPerUser < (List.range 1001).length
    ∧ ((cleanup_seen_listings (List.range 1001)).length = 500
      ∧ (cleanup_seen_listings (List.range 1001)).Sublist (List.range 1001)
      ∧ cleanup_seen_listings (List.range 1001)
          = (List.range 1001).drop ((List.range 1001).length - 500)) :=
  ⟨by rw [List.length_range]; norm_num [maxSeenPerUser],
   C1_trim_amended (List.range 1001)
     (by rw [List.length_range]; norm_num [maxSeenPerUser])⟩

/-- Counterexample to claim C2: a page with candidates but no new
matches (page 1, its only candidate already seen) immediately followed
by an empty page (page 2) stops the session: only 2 of the 3 available
pages are ever fetched, and the fresh matching candidate waiting on
page 3 is never reported.  The two streaks are not independent: both
situations bump the same counter. -/
theorem C2_counterexample :
    (scrape_listings cfgOpen false pagesC2 [1]).fetched = 2
    ∧ (scrape_listings cfgOpen false pagesC2 [1]).results = [] :=
  ⟨by decide, by decide⟩

/-- Claim C2 (amended): the session keeps one shared streak counter.
A page with candidates resets it to 0 before processing, so a page
with candidates but no new matches always leaves the counter at
exactly 1 and, alone, never stops the session; an empty page
increments the counter and stops the session when it reaches 2,
regardless of `force_all_pages`; in particular a no-new page (counter
1) immediately followed by an empty page stops the session. -/
theorem C2_shared_streak :
    (∀ (cfg : SearchConfig) (force : Bool) (seen results : List Nat)
        (streak fetched : Nat) (cands : List Candidate),
        cands.isEmpty = false → (processPage cfg seen cands).1 = 0 →
        scrapeStep cfg force ⟨seen, results, streak, fetched⟩ (some cands)
          = .continued ⟨(processPage cfg seen cands).2.1,
              results ++ (processPage cfg seen cands).2.2, 1, fetched⟩)
    ∧ (∀ (cfg : SearchConfig) (force : Bool) (seen results : List Nat)
        (streak fetched : Nat) (cands : List Candidate),
        cands.isEmpty = true →
        scrapeStep cfg force ⟨seen, results, streak, fetched⟩ (some cands)
          = if maxConsecutiveEmpty ≤ streak + 1
            then .stopped ⟨seen, results, streak + 1, fetched⟩
            else .continued ⟨seen, results, streak + 1, fetched⟩)
    ∧ (∀ (cfg : SearchConfig) (force : Bool) (seen results : List Nat)
        (fetched : Nat) (cands : List Candidate),
        cands.isEmpty = true →
        scrapeStep cfg force ⟨seen, results, 1, fetched⟩ (some cands)
          = .stopped ⟨seen, results, 2, fetched⟩) := by
  refine ⟨?_, ?_, ?_⟩
  · intro cfg force seen results streak fetched cands hemp h0
    rw [scrapeStep_cands_eq cfg force seen results streak fetched cands hemp,
      if_pos h0]
  · intro cfg force seen results streak fetched cands hemp
    exact scrapeStep_empty_eq cfg force seen results streak fetched cands hemp
  · intro cfg force seen results fetched cands hemp
    rw [scrapeStep_empty_eq cfg force seen results 1 fetched cands hemp,
      if_pos (by norm_num [maxConsecutiveEmpty])]

/-- Witness for C2 (amended): one already-seen candidate on the page. -/
theorem C2_shared_streak_witness :
    (([plainCand 1] : List Candidate).isEmpty = false
      ∧ (processPage cfgOpen [1] [plainCand 1]).1 = 0)
    ∧ scrapeStep cfgOpen false ⟨[1], [], 0, 1⟩ (some [plainCand 1])
        = .continued ⟨(processPage cfgOpen [1] [plainCand 1]).2.1,
            [] ++ (processPage cfgOpen [1] [plainCand 1]).2.2, 1, 1⟩ :=
  ⟨⟨rfl, by decide⟩,
   C2_shared_streak.1 cfgOpen false [1] [] 0 1 [plainCand 1] rfl (by decide)⟩

/-- Claim C6, evaluated at the failing input: with `max_pages = 4`,
`force_all_pages = false`, page 1 introducing one match and pages 2 and
3 repeating it (candidates but zero new matches), the code still
fetches page 4 and reports its fresh candidate, because the shared
streak counter is reset at the top of every page that has candidates
and so never reaches the threshold through no-new pages alone; with
`force_all_pages = true` the behaviour is identical. -/
theorem C6_code_behavior :
    (scrape_listings cfgOpen false pagesC6 []).fetched = 4
    ∧ (scrape_listings cfgOpen false pagesC6 []).results = [1, 4]
    ∧ (scrape_listings cfgOpen true pagesC6 []).fetched = 4
    ∧ (scrape_listings cfgOpen true pagesC6 []).results = [1, 4] :=
  ⟨by decide, by decide, by decide, by decide⟩

/-- Claim C7 (amended): provided the first run ends with at most 1000
ids in the seen set (so the trim is a no-op), immediately re-running
the crawl on identical page content for the same user reports
nothing: every candidate either was reported (so its id is now in the
seen set and the dedup membership test skips it) or is skipped again
for the same reason as before. -/
theorem C7_dedup_idempotent (cfg : SearchConfig) (force : Bool)
    (pages : List (Option (List Candidate))) (seen0 : List Nat)
    (hsize : (scrapeRun cfg force pages (initState seen0)).seen.length
      ≤ maxSeenPerUser) :
    (scrape_listings cfg force pages
        (scrape_listings cfg force pages seen0).seen).results = [] := by
  have hclean : cleanup_seen_listings
      (scrapeRun cfg force pages (initState seen0)).seen
      = (scrapeRun cfg force pages (initState seen0)).seen := by
    rw [cleanup_seen_listings, if_neg (not_lt.mpr hsize)]
  have hseen1 : (scrape_listings cfg force pages seen0).seen
      = (scrapeRun cfg force pages (initState seen0)).seen := hclean
  obtain ⟨-, hres⟩ := scrapeRun_replay cfg force pages (initState seen0)
    (initState (scrape_listings cfg force pages seen0).seen) le_rfl
    (fun x hx => by rw [hseen1]; exact hx)
  exact hres

/-- Witness for C7 (amended): one page with one fresh candidate. -/
theorem C7_dedup_idempotent_witness :
    (scrapeRun cfgOpen false [some [plainCand 3]] (initState [])).seen.length
      ≤ maxSeenPerUser
    ∧ (scrape_listings cfgOpen false [some [plainCand 3]]
        (scrape_listings cfgOpen false [some [plainCand 3]] []).seen).results
      = [] :=
  ⟨by decide,
   C7_dedup_idempotent cfgOpen false [some [plainCand 3]] [] (by decide)⟩

/-- The seen set a `scrape_listings` call returns is the trimmed seen
set of its pagination run. -/
theorem scrape_listings_seen (cfg : SearchConfig) (force : Bool)
    (pages : List (Option (List Candidate))) (seen0 : List Nat) :
    (scrape_listings cfg force pages seen0).seen
      = cleanup_seen_listings
          (scrapeRun cfg force pages (initState seen0)).seen := rfl

/-- The results a `scrape_listings` call returns are those of its
pagination run. -/
theorem scrape_listings_results (cfg : SearchConfig) (force : Bool)
    (pages : List (Option (List Candidate))) (seen0 : List Nat) :
    (scrape_listings cfg force pages seen0).results
      = (scrapeRun cfg force pages (initState seen0)).results := rfl

/-- The first C7 run processes the counterexample page: the candidate
with id 1 is already seen, the 500 fresh candidates are all reported. -/
theorem processPage_C7_first :
    processPage cfgOpen seenC7 candsC7 = (500, seenC7 ++ freshC7, freshC7) := by
  have h1mem : (1 : Nat) ∈ seenC7 := by
    rw [seenC7, List.mem_range'_1]
    omega
  have hskip : processListing cfgOpen (0, seenC7, []) (plainCand 1)
      = (0, seenC7, []) :=
    processListing_inert cfgOpen (0, seenC7, []) (plainCand 1) (Or.inl h1mem)
  have hnodup : freshC7.Nodup := by
    rw [freshC7]
    exact List.nodup_range' 502 500
  have hdisj : ∀ i ∈ freshC7, i ∉ ((0 : Nat), seenC7, ([] : List Nat)).2.1 := by
    intro i hi hmem
    rw [freshC7, List.mem_range'_1] at hi
    rw [seenC7, List.mem_range'_1] at hmem
    omega
  have hlen : freshC7.length = 500 := by
    rw [freshC7, List.length_range']
  rw [processPage, candsC7, List.foldl_cons, hskip,
    foldl_fresh freshC7 (0, seenC7, []) hnodup hdisj, hlen]
  rfl

/-- The second C7 run processes the counterexample page from the
trimmed seen set: the candidate with id 1 was evicted by the trim and
is reported again; the 500 fresh ids are still seen and skipped. -/
theorem processPage_C7_second :
    processPage cfgOpen freshC7 candsC7 = (1, freshC7 ++ [1], [1]) := by
  have h1notin : (1 : Nat) ∉ freshC7 := by
    rw [freshC7, List.mem_range'_1]
    omega
  have hrep : processListing cfgOpen (0, freshC7, []) (plainCand 1)
      = (1, freshC7 ++ [1], [1]) := by
    rcases processListing_cases cfgOpen (0, freshC7, []) (plainCand 1) with
      ⟨-, hin⟩ | ⟨heq, -⟩
    · exfalso
      simp only [inert, plainCand, cfgOpen] at hin
      rcases hin with hm | he | hf | hp | hr | hs1 | hs2
      · exact h1notin hm
      · exact absurd he (by decide)
      · exact absurd hf (by decide)
      · exact absurd hp (by decide)
      · exact absurd hr (by decide)
      · exact absurd hs1 (by decide)
      · exact absurd hs2 (by decide)
    · exact heq
  have hinert : ∀ c ∈ freshC7.map plainCand,
      inert cfgOpen ((1 : Nat), freshC7 ++ [1], ([1] : List Nat)).2.1 c := by
    intro c hc
    obtain ⟨i, hi, rfl⟩ := List.mem_map.mp hc
    exact Or.inl (List.mem_append_left _ hi)
  rw [processPage, candsC7, List.foldl_cons, hrep,
    foldl_inert cfgOpen (freshC7.map plainCand) (1, freshC7 ++ [1], [1]) hinert]

/-- A page whose processing reports at least one new listing continues
the loop with a reset streak, the updated seen set, and the page
results appended. -/
theorem scrapeStep_report (cfg : SearchConfig) (force : Bool)
    (seen results : List Nat) (streak fetched : Nat)
    (cands : List Candidate) (h : cands.isEmpty = false)
    (n : Nat) (S2 R2 : List Nat)
    (hp : processPage cfg seen cands = (n, S2, R2)) (hn : ¬ n = 0) :
    scrapeStep cfg force ⟨seen, results, streak, fetched⟩ (some cands)
      = .continued ⟨S2, results ++ R2, 0, fetched⟩ := by
  rw [scrapeStep_cands_eq cfg force seen results streak fetched cands h, hp,
    if_neg (show ¬ ((n, S2, R2).1 = 0) from hn)]

/-- A one-page run whose page reports at least one new listing. -/
theorem scrapeRun_single_page (cfg : SearchConfig) (force : Bool)
    (st : ScrapeState) (cands : List Candidate) (h : cands.isEmpty = false)
    (n : Nat) (S2 R2 : List Nat)
    (hp : processPage cfg st.seen cands = (n, S2, R2)) (hn : ¬ n = 0) :
    scrapeRun cfg force [some cands] st
      = ⟨S2, st.results ++ R2, 0, st.fetched + 1⟩ := by
  rw [scrapeRun_cons, scrapeStep_report cfg force st.seen st.results st.streak
    (st.fetched + 1) cands h n S2 R2 hp hn]
  rfl

/-- Counterexample to claim C7: starting from 501 previously-seen ids,
one cycle reports 500 fresh listings, pushing the seen set to 1001 ids;
the trim then keeps only the final 500, evicting the 501 older ids.
Re-running the identical cycle immediately afterwards reports the
listing with id 1 again even though it was in the seen set when the
first run started. -/
theorem C7_counterexample :
    (scrape_listings cfgOpen false pagesC7
        (scrape_listings cfgOpen false pagesC7 seenC7).seen).results = [1]
    ∧ (scrape_listings cfgOpen false pagesC7
        (scrape_listings cfgOpen false pagesC7 seenC7).seen).results ≠ [] := by
  have hne : candsC7.isEmpty = false := rfl
  have hrun1 : scrapeRun cfgOpen false pagesC7 (initState seenC7)
      = ⟨seenC7 ++ freshC7, freshC7, 0, 1⟩ :=
    scrapeRun_single_page cfgOpen false (initState seenC7) candsC7 hne
      500 (seenC7 ++ freshC7) freshC7 processPage_C7_first (by norm_num)
  have hlen : (seenC7 ++ freshC7).length = 1001 := by
    rw [List.length_append, seenC7, freshC7, List.length_range',
      List.length_range']
  have hclean1 : cleanup_seen_listings (seenC7 ++ freshC7) = freshC7 := by
    rw [cleanup_seen_listings, if_pos (by rw [hlen]; norm_num [maxSeenPerUser]),
      hlen]
    have h501 : (1001 : Nat) - 500 = seenC7.length := by
      rw [seenC7, List.length_range']
    rw [h501, List.drop_left]
  have hseen1 : (scrape_listings cfgOpen false pagesC7 seenC7).seen
      = freshC7 := by
    rw [scrape_listings_seen, hrun1]
    exact hclean1
  have hrun2 : scrapeRun cfgOpen false pagesC7 (initState freshC7)
      = ⟨freshC7 ++ [1], [1], 0, 1⟩ :=
    scrapeRun_single_page cfgOpen false (initState freshC7) candsC7 hne
      1 (freshC7 ++ [1]) [1] processPage_C7_second (by norm_num)
  have hmain : (scrape_listings cfgOpen false pagesC7
      (scrape_listings cfgOpen false pagesC7 seenC7).seen).results = [1] := by
    rw [hseen1, scrape_listings_results, hrun2]
  exact ⟨hmain, by rw [hmain]; simp⟩

/-- Claim C8: a candidate whose description contains a short-term
marker is never marked seen and never reported by the crawl: if every
candidate carrying an id on the fetched pages has a marker-bearing
description, and the id was not seen before, it is in neither the
final seen set nor the results. -/
theorem C8_short_term_never_marked (cfg : SearchConfig) (force : Bool)
    (pages : List (Option (List Candidate))) (seen0 : List Nat) (l : Nat)
    (hall : ∀ p ∈ pages, ∀ c ∈ p.getD [], c.link = l →
        hasExcludedTerm c.description = true)
    (h0 : l ∉ seen0) :
    l ∉ (scrape_listings cfg force pages seen0).seen
    ∧ l ∉ (scrape_listings cfg force pages seen0).results := by
  obtain ⟨hs, hr⟩ := scrapeRun_not_marked cfg force l pages (initState seen0)
    (fun p hp c hc hl => Or.inl (hall p hp c hc hl)) h0 (List.not_mem_nil l)
  refine ⟨fun hmem => hs (cleanup_subset _ l hmem), hr⟩

/-- Witness for C8: a single page whose only candidate has a
marker-bearing description and otherwise satisfies every filter. -/
theorem C8_short_term_never_marked_witness :
    ((∀ p ∈ pagesC8, ∀ c ∈ p.getD [], c.link = 5 →
        hasExcludedTerm c.description = true)
      ∧ (5 : Nat) ∉ ([] : List Nat))
    ∧ (5 ∉ (scrape_listings cfgOpen false pagesC8 []).seen
      ∧ 5 ∉ (scrape_listings cfgOpen false pagesC8 []).results) :=
  ⟨⟨by decide, by decide⟩,
   C8_short_term_never_marked cfgOpen false pagesC8 [] 5 (by decide)
     (by decide)⟩

/-- Claim C10: a candidate that survives the exclusion and dedup
checks but fails a numeric filter is skipped without being marked
seen; session-wide, an id whose candidates all fail a numeric filter
is never marked seen and never reported; and concretely, the listing
rejected under a 100-euro price ceiling is reported once the ceiling
is raised, because the first cycle left the seen set empty. -/
theorem C10_filter_fail_not_marked :
    (∀ (cfg : SearchConfig) (acc : Nat × List Nat × List Nat) (c : Candidate),
        acc.2.1.contains c.link = false →
        hasExcludedTerm c.description = false →
        hasExcludedFloor c.floor = false →
        (cfg.max_price < c.price ∨ c.rooms < cfg.min_rooms
          ∨ c.size < cfg.min_size ∨ cfg.max_size < c.size) →
        processListing cfg acc c = acc)
    ∧ (∀ (cfg : SearchConfig) (force : Bool)
        (pages : List (Option (List Candidate))) (seen0 : List Nat) (l : Nat),
        (∀ p ∈ pages, ∀ c ∈ p.getD [], c.link = l →
            cfg.max_price < c.price ∨ c.rooms < cfg.min_rooms
              ∨ c.size < cfg.min_size ∨ cfg.max_size < c.size) →
        l ∉ seen0 →
        l ∉ (scrape_listings cfg force pages seen0).seen
        ∧ l ∉ (scrape_listings cfg force pages seen0).results)
    ∧ ((scrape_listings cfgStrict false pagesC10 []).results = []
        ∧ (scrape_listings cfgStrict false pagesC10 []).seen = []
        ∧ (scrape_listings cfgOpen false pagesC10 []).results = [7]) := by
  refine ⟨?_, ?_, by decide, by decide, by decide⟩
  · intro cfg acc c hcont hterm hfloor hfail
    rcases processListing_cases cfg acc c with ⟨heq, -⟩ | ⟨-, hni⟩
    · exact heq
    · exfalso
      apply hni
      rcases hfail with hp | hr | hs1 | hs2
      · exact Or.inr (Or.inr (Or.inr (Or.inl hp)))
      · exact Or.inr (Or.inr (Or.inr (Or.inr (Or.inl hr))))
      · exact Or.inr (Or.inr (Or.inr (Or.inr (Or.inr (Or.inl hs1)))))
      · exact Or.inr (Or.inr (Or.inr (Or.inr (Or.inr (Or.inr hs2)))))
  · intro cfg force pages seen0 l hall h0
    obtain ⟨hs, hr⟩ := scrapeRun_not_marked cfg force l pages (initState seen0)
      (fun p hp c hc hl => by
        rcases hall p hp c hc hl with hp2 | hr2 | hs1 | hs2
        · exact Or.inr (Or.inr (Or.inl hp2))
        · exact Or.inr (Or.inr (Or.inr (Or.inl hr2)))
        · exact Or.inr (Or.inr (Or.inr (Or.inr (Or.inl hs1))))
        · exact Or.inr (Or.inr (Or.inr (Or.inr (Or.inr hs2)))))
      h0 (List.not_mem_nil l)
    exact ⟨fun hmem => hs (cleanup_subset _ l hmem), hr⟩

/-- Witness for C10: the strict-price rejection of `candC10` leaves
the accumulator untouched. -/
theorem C10_filter_fail_not_marked_witness :
    (([] : List Nat).contains candC10.link = false
      ∧ hasExcludedTerm candC10.description = false
      ∧ hasExcludedFloor candC10.floor = false
      ∧ (cfgStrict.max_price < candC10.price
          ∨ candC10.rooms < cfgStrict.min_rooms
          ∨ candC10.size < cfgStrict.min_size
          ∨ cfgStrict.max_size < candC10.size))
    ∧ processListing cfgStrict (0, [], []) candC10 = (0, [], []) :=
  ⟨⟨by decide, by decide, by decide, Or.inl (by decide)⟩,
   C10_filter_fail_not_marked.1 cfgStrict (0, [], []) candC10 (by decide)
     (by decide) (by decide) (Or.inl (by decide))⟩

end Idealista
